import Mathlib

/-!
Verification of the SHM-Capstone binary time-series log engine.

The development shallowly embeds the Python sources:
* `src/backend/main.py` (query path: struct formats, `_read_tail_bytes`,
  `read_accel_points`, `read_inclinometer_points`, `read_temperature_points`),
* `src/dataStorage/[UNTEST]alldata_test.py` (single-node ingestion router),
* `src/dataStorage/[UNTEST]multiple_nodes_test.py` (multi-node ingestion router),
* `src/dataStorage/data_sub_binary.py` (accelerometer writer, daily file name).

Modelling conventions:
* A byte is a `Nat` (always `< 256` by construction), a file is a `List Nat`.
* A Python `float` is modelled by its IEEE-754 bit patterns: `bits64` is the
  binary64 pattern that `struct.pack "<d"` stores, `bits32` the binary32
  pattern that `struct.pack "<f"` stores for the same value.  `struct.unpack`
  of a matching width is a bitwise bijection, so round-trips are stated on
  patterns.  The numeric ordering used by `ts < cutoff_s` is recovered by
  `f64scaled`, the exact real value of a binary64 pattern scaled by `2 ^ 1075`
  (the scaling makes every finite value, subnormals included, an integer and
  preserves order and equality).
* The filesystem seen by the query path is a map from path to file contents,
  `none` meaning the file does not exist; the writers are modelled as
  returning the list of `(path, record)` appends they perform together with
  the exception they raise, if any (`KeyError` on a missing dict field).
-/

namespace SHM

abbrev Byte := Nat

abbrev Buffer := List Byte

/-- Little-endian serialisation of the low `w` bytes of a bit pattern,
as `struct.pack` with standard sizes does for every multi-byte field. -/
def packLE : Nat → Nat → Buffer
  | 0, _ => []
  | w + 1, bits => bits % 256 :: packLE w (bits / 256)

/-- Little-endian deserialisation of a byte string into a bit pattern,
as `struct.unpack` with standard sizes does. -/
def unpackLE (bs : Buffer) : Nat :=
  bs.foldr (fun b acc => b + 256 * acc) 0

/-- A Python float as `struct` sees it: its binary64 bit pattern and the
binary32 pattern produced when it is narrowed by `struct.pack "<f"`. -/
structure PyFloat where
  bits64 : Nat
  bits32 : Nat
deriving DecidableEq, Repr

/-- Well-formed bit patterns: they fit in their respective widths. -/
def PyFloat.Wf (v : PyFloat) : Prop :=
  v.bits64 < 2 ^ 64 ∧ v.bits32 < 2 ^ 32

instance (v : PyFloat) : Decidable v.Wf := by
  unfold PyFloat.Wf; infer_instance

/-- Exact value of a finite IEEE-754 binary64 bit pattern, scaled by
`2 ^ 1075` so that it is an integer (binary64 has a 52-bit mantissa and
minimum exponent `-1022`, so every finite value is a multiple of `2 ^ -1074`).
Order and equality of finite doubles coincide with order and equality of
their scaled values, which is all the query filter needs.  NaN and infinity
patterns (biased exponent `2047`) do not occur in the claims. -/
def f64scaled (bits : Nat) : Int :=
  let sign := bits / 2 ^ 63 % 2
  let expo := bits / 2 ^ 52 % 2 ^ 11
  let frac := bits % 2 ^ 52
  let numer : Nat := if expo = 0 then 2 * frac else (2 ^ 52 + frac) * 2 ^ expo
  if sign = 1 then -(numer : Int) else (numer : Int)

/-- One second, in the `2 ^ 1075`-scaled value domain of `f64scaled`. -/
def secondScale : Int := ((2 ^ 1075 : Nat) : Int)

/-- `struct.pack("<dfff", ts, a, b, c)`: 8-byte double then three 4-byte
floats, little-endian, 20 bytes. -/
def pack_dfff (ts a b c : PyFloat) : Buffer :=
  packLE 8 ts.bits64 ++ (packLE 4 a.bits32 ++ (packLE 4 b.bits32 ++ packLE 4 c.bits32))

/-- `struct.pack("<dff", ts, a, b)`: 8-byte double then two 4-byte floats,
little-endian, 16 bytes. -/
def pack_dff (ts a b : PyFloat) : Buffer :=
  packLE 8 ts.bits64 ++ (packLE 4 a.bits32 ++ packLE 4 b.bits32)

/-- `struct.pack("<df", ts, v)`: 8-byte double then one 4-byte float,
little-endian, 12 bytes. -/
def pack_df (ts v : PyFloat) : Buffer :=
  packLE 8 ts.bits64 ++ packLE 4 v.bits32

/-- Fuel-driven splitting of a buffer into `n`-byte chunks (the fuel
argument only makes the recursion structural; `chunks` supplies enough). -/
def chunksAux (n : Nat) : Nat → Buffer → List Buffer
  | _, [] => []
  | 0, _ :: _ => []
  | fuel + 1, x :: xs => (x :: xs).take n :: chunksAux n fuel ((x :: xs).drop n)

/-- Split a buffer into consecutive `n`-byte chunks, the stride with which
`struct.iter_unpack` walks a buffer. -/
def chunks (n : Nat) (l : Buffer) : List Buffer :=
  if n = 0 then [] else chunksAux n l.length l

/-- Decoded `"<dfff"` record: the `(ts, ax, ay, az)` bit patterns that
`struct.iter_unpack` yields for one 20-byte chunk. -/
abbrev Rec4 := Nat × Nat × Nat × Nat

/-- Decoded `"<dff"` record: `(ts, pitch, roll)` bit patterns. -/
abbrev Rec3 := Nat × Nat × Nat

/-- Decoded `"<df"` record: `(ts, value)` bit patterns. -/
abbrev Rec2 := Nat × Nat

/-- Unpack one 20-byte `"<dfff"` chunk. -/
def unpackRec_dfff (c : Buffer) : Rec4 :=
  (unpackLE (c.take 8), unpackLE ((c.drop 8).take 4),
   unpackLE ((c.drop 12).take 4), unpackLE ((c.drop 16).take 4))

/-- Unpack one 16-byte `"<dff"` chunk. -/
def unpackRec_dff (c : Buffer) : Rec3 :=
  (unpackLE (c.take 8), unpackLE ((c.drop 8).take 4), unpackLE ((c.drop 12).take 4))

/-- Unpack one 12-byte `"<df"` chunk. -/
def unpackRec_df (c : Buffer) : Rec2 :=
  (unpackLE (c.take 8), unpackLE ((c.drop 8).take 4))

/-- `struct.iter_unpack("<dfff", data)`: requires the buffer length to be an
exact multiple of 20 (otherwise `struct.error`, modelled as `none`), then
yields one record per 20-byte chunk. -/
def iterUnpack_dfff (data : Buffer) : Option (List Rec4) :=
  if data.length % 20 = 0 then some ((chunks 20 data).map unpackRec_dfff) else none

/-- `struct.iter_unpack("<dff", data)` (stride 16). -/
def iterUnpack_dff (data : Buffer) : Option (List Rec3) :=
  if data.length % 16 = 0 then some ((chunks 16 data).map unpackRec_dff) else none

/-- `struct.iter_unpack("<df", data)` (stride 12). -/
def iterUnpack_df (data : Buffer) : Option (List Rec2) :=
  if data.length % 12 = 0 then some ((chunks 12 data).map unpackRec_df) else none

/-- Python `lst[-limit:]`: the last `limit` entries, except that `limit = 0`
yields the whole list (`lst[-0:] == lst[0:] == lst`). -/
def pySliceLast {α : Type} (limit : Nat) (l : List α) : List α :=
  if limit = 0 then l else l.drop (l.length - limit)

/-- The filesystem as the query path sees it: contents per path, `none` when
the file does not exist. -/
abbrev FS := String → Option Buffer

/-- The append log of a writer: the `(path, record)` appends it performed,
in order. -/
abbrev WriteLog := List (String × Buffer)

/-- `data["name"]` on an optional field: the value, or a raised `KeyError`. -/
def getField (v : Option PyFloat) (name : String) : Except String PyFloat :=
  match v with
  | some x => Except.ok x
  | none => Except.error ("KeyError: " ++ name)

/- Backend query service, from `src/backend/main.py`. -/
namespace Backend

/-- `DATA_DIR = Path("/home/pi/Data")`. -/
def DATA_DIR : String := "/home/pi/Data"

/-- `ACCEL_BIN = DATA_DIR / "accel_data_20260219.bin"`. -/
def ACCEL_BIN : String := DATA_DIR ++ "/accel_data_20260219.bin"

/-- `INCL_BIN = DATA_DIR / "incl_data.bin"`. -/
def INCL_BIN : String := DATA_DIR ++ "/incl_data.bin"

/-- `TEMP_BIN = DATA_DIR / "temp_data.bin"`. -/
def TEMP_BIN : String := DATA_DIR ++ "/temp_data.bin"

/-- `ACCEL_SIZE = struct.calcsize("<dfff")`. -/
def ACCEL_SIZE : Nat := 20

/-- `INCL_SIZE = struct.calcsize("<dff")`. -/
def INCL_SIZE : Nat := 16

/-- `TEMP_SIZE = struct.calcsize("<df")`. -/
def TEMP_SIZE : Nat := 12

/-- `_read_tail_bytes(path, record_size, max_records)`: empty buffer when the
file does not exist; otherwise `bytes_needed = min(size, max_records *
record_size)`, seek to `size - bytes_needed`, read to end. -/
def read_tail_bytes (fs : FS) (path : String) (record_size max_records : Nat) :
    Buffer :=
  match fs path with
  | none => []
  | some data =>
    let size := data.length
    let bytes_needed := min size (max_records * record_size)
    if bytes_needed ≤ 0 then []
    else data.drop (size - bytes_needed)

/-- One point of `read_accel_points`: `{"ts": .., "value": ..}` for a single
channel, `{"ts": .., "ax": .., "ay": .., "az": ..}` for `channel == "all"`.
The stored epoch-seconds timestamp is kept as its bit pattern; the source
renders it via `_iso_from_epoch_seconds`, an injective formatting step. -/
inductive AccelPoint where
  | single (ts val : Nat)
  | all (ts ax ay az : Nat)
deriving DecidableEq, Repr

/-- `{"x": 1, "y": 2, "z": 3}.get(channel, 1)` -- default to x. -/
def accelIdx (channel : String) : Nat :=
  if channel = "x" then 1 else if channel = "y" then 2 else
  if channel = "z" then 3 else 1

/-- `(ts, ax, ay, az)[idx]`. -/
def tupleGet4 (r : Rec4) (idx : Nat) : Nat :=
  match idx with
  | 0 => r.1
  | 1 => r.2.1
  | 2 => r.2.2.1
  | _ => r.2.2.2

/-- `(ts, pitch, roll)[idx]`. -/
def tupleGet3 (r : Rec3) (idx : Nat) : Nat :=
  match idx with
  | 0 => r.1
  | 1 => r.2.1
  | _ => r.2.2

/-- Lines 187-194 of `main.py`: truncate the tail buffer to an exact multiple
of `ACCEL_SIZE` (`usable_len`) and decode it record by record. -/
def accelDecodeStage (data : Buffer) : Option (List Rec4) :=
  iterUnpack_dfff (data.take (data.length / ACCEL_SIZE * ACCEL_SIZE))

/-- Truncate-and-decode stage of `read_inclinometer_points`. -/
def inclDecodeStage (data : Buffer) : Option (List Rec3) :=
  iterUnpack_dff (data.take (data.length / INCL_SIZE * INCL_SIZE))

/-- Truncate-and-decode stage of `read_temperature_points`. -/
def tempDecodeStage (data : Buffer) : Option (List Rec2) :=
  iterUnpack_df (data.take (data.length / TEMP_SIZE * TEMP_SIZE))

/-- `read_accel_points(minutes, channel, max_records_to_scan, limit)`.
`now_s` stands for `datetime.now(timezone.utc).timestamp()` in the scaled
value domain of `f64scaled`; `cutoff_s = now_s - minutes * 60`.  The
`for .. if ts < cutoff_s: continue .. append` loop is the filter-then-map;
`points[-limit:]` is `pySliceLast`.  `none` models a raised `struct.error`. -/
def read_accel_points (fs : FS) (now_s : Int) (minutes : Nat) (channel : String)
    (max_records_to_scan limit : Nat) : Option (List AccelPoint) :=
  let cutoff_s : Int := now_s - (minutes * 60 : Nat) * secondScale
  let data := read_tail_bytes fs ACCEL_BIN ACCEL_SIZE max_records_to_scan
  if data = [] then some []
  else
    match accelDecodeStage data with
    | none => none
    | some recs =>
      if channel = "all" then
        some (pySliceLast limit
          ((recs.filter (fun r => !decide (f64scaled r.1 < cutoff_s))).map
            (fun r => AccelPoint.all r.1 r.2.1 r.2.2.1 r.2.2.2)))
      else
        some (pySliceLast limit
          ((recs.filter (fun r => !decide (f64scaled r.1 < cutoff_s))).map
            (fun r => AccelPoint.single r.1 (tupleGet4 r (accelIdx channel)))))

/-- One point of `read_inclinometer_points` or `read_temperature_points`:
`{"ts": .., "value": ..}` as bit patterns. -/
structure Pt where
  ts : Nat
  value : Nat
deriving DecidableEq, Repr

/-- `idx = 1 if channel != "roll" else 2`. -/
def inclIdx (channel : String) : Nat :=
  if channel ≠ "roll" then 1 else 2

/-- `read_inclinometer_points(minutes, channel, max_records_to_scan, limit)`. -/
def read_inclinometer_points (fs : FS) (now_s : Int) (minutes : Nat)
    (channel : String) (max_records_to_scan limit : Nat) : Option (List Pt) :=
  let cutoff_s : Int := now_s - (minutes * 60 : Nat) * secondScale
  let data := read_tail_bytes fs INCL_BIN INCL_SIZE max_records_to_scan
  if data = [] then some []
  else
    match inclDecodeStage data with
    | none => none
    | some recs =>
      some (pySliceLast limit
        ((recs.filter (fun r => !decide (f64scaled r.1 < cutoff_s))).map
          (fun r => Pt.mk r.1 (tupleGet3 r (inclIdx channel)))))

/-- `read_temperature_points(minutes, max_records_to_scan, limit)`. -/
def read_temperature_points (fs : FS) (now_s : Int) (minutes : Nat)
    (max_records_to_scan limit : Nat) : Option (List Pt) :=
  let cutoff_s : Int := now_s - (minutes * 60 : Nat) * secondScale
  let data := read_tail_bytes fs TEMP_BIN TEMP_SIZE max_records_to_scan
  if data = [] then some []
  else
    match tempDecodeStage data with
    | none => none
    | some recs =>
      some (pySliceLast limit
        ((recs.filter (fun r => !decide (f64scaled r.1 < cutoff_s))).map
          (fun r => Pt.mk r.1 r.2)))

end Backend

/-- `s.split(sep)` of Python for a one-character separator, on the character
list of the string: no collapsing of empty parts, `"".split(sep) == [""]`. -/
def pySplitChars (sep : Char) : List Char → List (List Char)
  | [] => [[]]
  | c :: rest =>
    let r := pySplitChars sep rest
    if c = sep then [] :: r
    else
      match r with
      | h :: t => (c :: h) :: t
      | [] => [[c]]

/-- Python `topic.split("/")`. -/
def pySplit (sep : Char) (s : String) : List String :=
  (pySplitChars sep s.data).map fun l => String.mk l

/- Single-node multi-sensor ingestion router,
from `src/dataStorage/[UNTEST]alldata_test.py`. -/
namespace AllData

/-- `DATA_DIR = "/home/pi/Data"`. -/
def DATA_DIR : String := "/home/pi/Data"

/-- `get_daily_filenames()`: `(date_str, accel_file, inclin_file, temp_file)`,
with `datetime.now().strftime("%Y%m%d")` passed in as `date_str`. -/
def get_daily_filenames (date_str : String) : String × String × String × String :=
  (date_str,
   DATA_DIR ++ "/accel_" ++ date_str ++ ".bin",
   DATA_DIR ++ "/inclin_" ++ date_str ++ ".bin",
   DATA_DIR ++ "/temp_" ++ date_str ++ ".bin")

/-- The decoded JSON payload: the fields the router looks at, each optional
(`"ax" in data` is `Option.isSome`, `data["ax"]` raises `KeyError` on a
missing field). -/
structure Msg where
  timestamp : Option PyFloat
  ax : Option PyFloat
  ay : Option PyFloat
  az : Option PyFloat
  ix : Option PyFloat
  iy : Option PyFloat
  iz : Option PyFloat
  temperature : Option PyFloat
deriving DecidableEq, Repr

/-- `on_message`: routes one message to up to three daily files.  Returns the
appends performed, in file order, together with the exception raised, if
any; appends performed before an exception are kept (each `struct.pack` of a
branch runs before that branch's file write, so a `KeyError` inside a branch
loses only that branch's append). -/
def on_message (date_str : String) (data : Msg) : WriteLog × Option String :=
  let (_, accel_path, inclin_path, temp_path) := get_daily_filenames date_str
  match getField data.timestamp "timestamp" with
  | Except.error e => ([], some e)
  | Except.ok timestamp =>
    let accelRes : Except String WriteLog :=
      if data.ax.isSome then do
        let ax ← getField data.ax "ax"
        let ay ← getField data.ay "ay"
        let az ← getField data.az "az"
        pure [(accel_path, pack_dfff timestamp ax ay az)]
      else pure []
    match accelRes with
    | Except.error e => ([], some e)
    | Except.ok log₁ =>
      let inclinRes : Except String WriteLog :=
        if data.ix.isSome then do
          let ix ← getField data.ix "ix"
          let iy ← getField data.iy "iy"
          let iz ← getField data.iz "iz"
          pure [(inclin_path, pack_dfff timestamp ix iy iz)]
        else pure []
      match inclinRes with
      | Except.error e => (log₁, some e)
      | Except.ok log₂ =>
        let tempRes : Except String WriteLog :=
          if data.temperature.isSome then do
            let t ← getField data.temperature "temperature"
            pure [(temp_path, pack_df timestamp t)]
          else pure []
        match tempRes with
        | Except.error e => (log₁ ++ log₂, some e)
        | Except.ok log₃ => (log₁ ++ log₂ ++ log₃, none)

end AllData

/- Multi-node ingestion router,
from `src/dataStorage/[UNTEST]multiple_nodes_test.py`. -/
namespace MultiNode

/-- `get_daily_filenames(node_id)`. -/
def get_daily_filenames (node_id date_str : String) :
    String × String × String × String :=
  (date_str,
   AllData.DATA_DIR ++ "/accel_" ++ node_id ++ "_" ++ date_str ++ ".bin",
   AllData.DATA_DIR ++ "/inclin_" ++ node_id ++ "_" ++ date_str ++ ".bin",
   AllData.DATA_DIR ++ "/temp_" ++ node_id ++ "_" ++ date_str ++ ".bin")

/-- The decoded JSON payload of the multi-node schema: `"t"` timestamp,
`"a"`/`"i"` three-element lists, `"T"` temperature. -/
structure Msg where
  t : Option PyFloat
  a : Option (PyFloat × PyFloat × PyFloat)
  i : Option (PyFloat × PyFloat × PyFloat)
  T : Option PyFloat
deriving DecidableEq, Repr

/-- `on_message` of the multi-node router.  `topic_parts = msg.topic.split("/")`;
`if len(topic_parts) != 2: return` drops the message with a bare `return`
(no write, no raised exception, no diagnostic).  In the temperature branch
the source packs `float(data["t"])` -- the timestamp -- as the 4-byte value,
not `data["T"]`. -/
def on_message (date_str topic : String) (data : Msg) : WriteLog × Option String :=
  match pySplit '/' topic with
  | [_, node_id] =>
    let (_, accel_path, inclin_path, temp_path) := get_daily_filenames node_id date_str
    match data.t with
    | none => ([], some "KeyError: t")
    | some timestamp =>
      let log₁ : WriteLog :=
        match data.a with
        | some (a0, a1, a2) => [(accel_path, pack_dfff timestamp a0 a1 a2)]
        | none => []
      let log₂ : WriteLog :=
        match data.i with
        | some (i0, i1, i2) => [(inclin_path, pack_dfff timestamp i0 i1 i2)]
        | none => []
      let log₃ : WriteLog :=
        match data.T with
        | some _ => [(temp_path, pack_df timestamp timestamp)]
        | none => []
      (log₁ ++ log₂ ++ log₃, none)
  | _ => ([], none)

end MultiNode

/- Accelerometer-only writer, from `src/dataStorage/data_sub_binary.py`. -/
namespace SubBinary

/-- `PACKET_SIZE = struct.calcsize("<dfff")`. -/
def PACKET_SIZE : Nat := 20

/-- `get_daily_filename()`: `(date_str, DATA_DIR/accel_data_{date_str}.bin)`. -/
def get_daily_filename (date_str : String) : String × String :=
  (date_str, AllData.DATA_DIR ++ "/accel_data_" ++ date_str ++ ".bin")

end SubBinary

/- Specification-side vocabulary used to state the claims: the shape of a
well-formed record list, the file a writer produces from it, and the
filter/projection/truncation the spec describes.  These are compared against
the code-level pipeline above. -/

/-- An in-memory accelerometer sample list entry: `(ts, ax, ay, az)`. -/
abbrev PF4 := PyFloat × PyFloat × PyFloat × PyFloat

/-- All four floats of a sample have well-formed bit patterns. -/
def Wf4 (r : PF4) : Prop :=
  r.1.Wf ∧ r.2.1.Wf ∧ r.2.2.1.Wf ∧ r.2.2.2.Wf

instance (r : PF4) : Decidable (Wf4 r) := by
  unfold Wf4; infer_instance

/-- The bit patterns `struct.unpack` recovers from one packed sample. -/
def recBits4 (r : PF4) : Rec4 :=
  (r.1.bits64, r.2.1.bits32, r.2.2.1.bits32, r.2.2.2.bits32)

/-- An accelerometer log file holding exactly the given whole records, each
packed with the writer format `"<dfff"` (`PACKET_FORMAT` of
`data_sub_binary.py`, `ACCEL_FORMAT` of the routers). -/
def encodeAccelLog (recs : List PF4) : Buffer :=
  (recs.map (fun r => pack_dfff r.1 r.2.1 r.2.2.1 r.2.2.2)).flatten

/-- The last `limit` entries of a list (spec wording: "truncated to the last
limit entries"). -/
def takeLast {α : Type} (limit : Nat) (l : List α) : List α :=
  l.drop (l.length - limit)

/-- The point the query returns for one record on a given channel. -/
def accelProj (channel : String) (r : PF4) : Backend.AccelPoint :=
  if channel = "all" then
    Backend.AccelPoint.all r.1.bits64 r.2.1.bits32 r.2.2.1.bits32 r.2.2.2.bits32
  else
    Backend.AccelPoint.single r.1.bits64
      (Backend.tupleGet4 (recBits4 r) (Backend.accelIdx channel))

/-- The timestamp pattern carried by a returned point. -/
def Backend.AccelPoint.tsBits : Backend.AccelPoint → Nat
  | Backend.AccelPoint.single ts _ => ts
  | Backend.AccelPoint.all ts _ _ _ => ts

/- ------------------------------------------------------------------ -/
/- Theorems. -/
/- ------------------------------------------------------------------ -/

theorem packLE_length (w bits : Nat) : (packLE w bits).length = w := by
  induction w generalizing bits with
  | zero => rfl
  | succ w ih => simp [packLE, ih]

theorem unpackLE_packLE (w bits : Nat) :
    unpackLE (packLE w bits) = bits % 256 ^ w := by
  induction w generalizing bits with
  | zero => simp [packLE, unpackLE, Nat.mod_one]
  | succ w ih =>
    have h : unpackLE (packLE (w + 1) bits)
        = bits % 256 + 256 * unpackLE (packLE w (bits / 256)) := rfl
    rw [h, ih, pow_succ, mul_comm (256 ^ w) 256]
    exact (Nat.mod_mul).symm

theorem unpackLE_packLE_of_lt {w bits : Nat} (h : bits < 256 ^ w) :
    unpackLE (packLE w bits) = bits := by
  rw [unpackLE_packLE, Nat.mod_eq_of_lt h]

theorem pack_dfff_length (ts a b c : PyFloat) : (pack_dfff ts a b c).length = 20 := by
  simp [pack_dfff, packLE_length]

theorem pack_dff_length (ts a b : PyFloat) : (pack_dff ts a b).length = 16 := by
  simp [pack_dff, packLE_length]

theorem pack_df_length (ts v : PyFloat) : (pack_df ts v).length = 12 := by
  simp [pack_df, packLE_length]

theorem chunksAux_nil (n : Nat) (fuel : Nat) : chunksAux n fuel [] = [] := by
  cases fuel <;> rfl

theorem chunksAux_congr {n : Nat} (hn : 0 < n) :
    ∀ fuel₁ fuel₂ l, l.length ≤ fuel₁ → l.length ≤ fuel₂ →
      chunksAux n fuel₁ l = chunksAux n fuel₂ l := by
  intro fuel₁
  induction fuel₁ with
  | zero =>
    intro fuel₂ l h₁ _
    have hl : l = [] := List.eq_nil_of_length_eq_zero (Nat.le_zero.mp h₁)
    subst hl
    rw [chunksAux_nil, chunksAux_nil]
  | succ f ih =>
    intro fuel₂ l h₁ h₂
    cases l with
    | nil => rw [chunksAux_nil, chunksAux_nil]
    | cons x xs =>
      cases fuel₂ with
      | zero => simp at h₂
      | succ f₂ =>
        simp only [chunksAux]
        congr 1
        apply ih
        · rw [List.length_drop]
          simp only [List.length_cons] at h₁ ⊢
          omega
        · rw [List.length_drop]
          simp only [List.length_cons] at h₂ ⊢
          omega

theorem chunks_nil (n : Nat) : chunks n [] = [] := by
  unfold chunks
  split
  · rfl
  · rw [chunksAux_nil]

theorem chunks_block {n : Nat} (hn : 0 < n) {l : Buffer} (hl : l.length = n)
    (r : Buffer) : chunks n (l ++ r) = l :: chunks n r := by
  have hne : n ≠ 0 := by omega
  cases l with
  | nil =>
    exfalso
    simp at hl
    omega
  | cons x xs =>
    unfold chunks
    rw [if_neg hne, if_neg hne]
    rw [List.cons_append]
    have hlen : (x :: (xs ++ r)).length = xs.length + r.length + 1 := by
      simp
    rw [hlen]
    simp only [chunksAux]
    have htake : (x :: (xs ++ r)).take n = x :: xs := by
      have h := List.take_left (x :: xs) r
      rw [hl] at h
      simpa using h
    have hdrop : (x :: (xs ++ r)).drop n = r := by
      have h := List.drop_left (x :: xs) r
      rw [hl] at h
      simpa using h
    rw [htake, hdrop]
    congr 1
    apply chunksAux_congr hn
    · simp only [List.length_cons] at hl
      omega
    · exact le_rfl

theorem chunks_flatten {n : Nat} (hn : 0 < n) (L : List Buffer)
    (hL : ∀ l ∈ L, l.length = n) : chunks n L.flatten = L := by
  induction L with
  | nil => simpa using chunks_nil n
  | cons l L ih =>
    have : (l :: L).flatten = l ++ L.flatten := rfl
    rw [this, chunks_block hn (hL l (by simp)) L.flatten]
    rw [ih (fun m hm => hL m (by simp [hm]))]

theorem chunks_length {n : Nat} (hn : 0 < n) :
    ∀ k l, l.length = n * k → (chunks n l).length = k := by
  intro k
  induction k with
  | zero =>
    intro l hl
    have : l = [] := List.eq_nil_of_length_eq_zero (by omega)
    subst this
    simp [chunks_nil]
  | succ k ih =>
    intro l hl
    have hmul : n * (k + 1) = n * k + n := by ring
    have hge : n ≤ l.length := by omega
    have hsplit : l = l.take n ++ l.drop n := (List.take_append_drop n l).symm
    have htlen : (l.take n).length = n := by
      rw [List.length_take]
      omega
    have hdlen : (l.drop n).length = n * k := by
      rw [List.length_drop]
      omega
    rw [hsplit, chunks_block hn htlen (l.drop n)]
    simp [ih (l.drop n) hdlen]

theorem take_pack (w x : Nat) (r : Buffer) :
    (packLE w x ++ r).take w = packLE w x := by
  have h := List.take_left (packLE w x) r
  rwa [packLE_length] at h

theorem drop_pack (w x : Nat) (r : Buffer) :
    (packLE w x ++ r).drop w = r := by
  have h := List.drop_left (packLE w x) r
  rwa [packLE_length] at h

theorem drop_add (l : Buffer) (m n : Nat) : l.drop (m + n) = (l.drop m).drop n :=
  (List.drop_drop n m l).symm

theorem pow256_4 : (256 : Nat) ^ 4 = 2 ^ 32 := by norm_num

theorem pow256_8 : (256 : Nat) ^ 8 = 2 ^ 64 := by norm_num

theorem unpack_pack_64 {x : Nat} (h : x < 2 ^ 64) (r : Buffer) :
    unpackLE ((packLE 8 x ++ r).take 8) = x := by
  rw [take_pack]
  exact unpackLE_packLE_of_lt (by rw [pow256_8]; exact h)

theorem unpack_pack_32 {x : Nat} (h : x < 2 ^ 32) (r : Buffer) :
    unpackLE ((packLE 4 x ++ r).take 4) = x := by
  rw [take_pack]
  exact unpackLE_packLE_of_lt (by rw [pow256_4]; exact h)

theorem unpack_pack_32_nil {x : Nat} (h : x < 2 ^ 32) :
    unpackLE ((packLE 4 x).take 4) = x := by
  have e : packLE 4 x = packLE 4 x ++ [] := by simp
  rw [e]
  exact unpack_pack_32 h []

theorem unpackRec_dfff_pack {ts a b c : PyFloat} (hts : ts.Wf) (ha : a.Wf)
    (hb : b.Wf) (hc : c.Wf) :
    unpackRec_dfff (pack_dfff ts a b c) = recBits4 (ts, a, b, c) := by
  unfold unpackRec_dfff pack_dfff recBits4
  have h8 : (packLE 8 ts.bits64 ++
      (packLE 4 a.bits32 ++ (packLE 4 b.bits32 ++ packLE 4 c.bits32))).drop 8
      = packLE 4 a.bits32 ++ (packLE 4 b.bits32 ++ packLE 4 c.bits32) :=
    drop_pack _ _ _
  have e12 : (12 : Nat) = 8 + 4 := rfl
  have e16 : (16 : Nat) = 12 + 4 := rfl
  rw [e16, drop_add, e12, drop_add, h8, drop_pack, drop_pack]
  rw [unpack_pack_64 hts.1, unpack_pack_32 ha.2, unpack_pack_32 hb.2,
    unpack_pack_32_nil hc.2]

theorem unpackRec_dff_pack_dfff {ts a b c : PyFloat} (hts : ts.Wf) (ha : a.Wf)
    (hb : b.Wf) :
    unpackRec_dff ((pack_dfff ts a b c).take 16) =
      (ts.bits64, a.bits32, b.bits32) := by
  unfold unpackRec_dff pack_dfff
  have e12 : (12 : Nat) = 8 + 4 := rfl
  have hb16 : ((packLE 8 ts.bits64 ++
      (packLE 4 a.bits32 ++ (packLE 4 b.bits32 ++ packLE 4 c.bits32))).take 16) =
      packLE 8 ts.bits64 ++ (packLE 4 a.bits32 ++ packLE 4 b.bits32) := by
    have assoc : packLE 8 ts.bits64 ++
        (packLE 4 a.bits32 ++ (packLE 4 b.bits32 ++ packLE 4 c.bits32)) =
        (packLE 8 ts.bits64 ++ (packLE 4 a.bits32 ++ packLE 4 b.bits32)) ++
          packLE 4 c.bits32 := by
      simp [List.append_assoc]
    rw [assoc]
    have hlen : (packLE 8 ts.bits64 ++
        (packLE 4 a.bits32 ++ packLE 4 b.bits32)).length = 16 := by
      simp [packLE_length]
    have h := List.take_left (packLE 8 ts.bits64 ++
      (packLE 4 a.bits32 ++ packLE 4 b.bits32)) (packLE 4 c.bits32)
    rwa [hlen] at h
  rw [hb16]
  rw [unpack_pack_64 hts.1, drop_pack, unpack_pack_32 ha.2, e12, drop_add,
    drop_pack, drop_pack, unpack_pack_32_nil hb.2]

theorem encodeAccelLog_length (recs : List PF4) :
    (encodeAccelLog recs).length = 20 * recs.length := by
  induction recs with
  | nil => rfl
  | cons r recs ih =>
    have h : encodeAccelLog (r :: recs) =
        pack_dfff r.1 r.2.1 r.2.2.1 r.2.2.2 ++ encodeAccelLog recs := rfl
    rw [h, List.length_append, pack_dfff_length, ih, List.length_cons]
    ring

theorem iterUnpack_dfff_encode (recs : List PF4) (hwf : ∀ r ∈ recs, Wf4 r) :
    iterUnpack_dfff (encodeAccelLog recs) = some (recs.map recBits4) := by
  unfold iterUnpack_dfff
  rw [encodeAccelLog_length recs]
  rw [if_pos (Nat.mul_mod_right 20 recs.length)]
  unfold encodeAccelLog
  rw [chunks_flatten (by norm_num) _ (by
    intro l hl
    obtain ⟨r, _, hr⟩ := List.mem_map.mp hl
    rw [← hr]
    exact pack_dfff_length _ _ _ _)]
  rw [List.map_map]
  apply congrArg
  apply List.map_congr_left
  intro r hr
  have h := hwf r hr
  exact unpackRec_dfff_pack h.1 h.2.1 h.2.2.1 h.2.2.2

theorem read_tail_bytes_congr {fs fs' : FS} {p : String}
    (h : fs p = fs' p) (record_size max_records : Nat) :
    Backend.read_tail_bytes fs p record_size max_records =
      Backend.read_tail_bytes fs' p record_size max_records := by
  unfold Backend.read_tail_bytes
  rw [h]

theorem read_tail_bytes_none {fs : FS} {p : String} (h : fs p = none)
    (record_size max_records : Nat) :
    Backend.read_tail_bytes fs p record_size max_records = [] := by
  unfold Backend.read_tail_bytes
  rw [h]

theorem read_tail_bytes_full {fs : FS} {p : String} {buf : Buffer}
    (record_size max_records : Nat) (hfs : fs p = some buf)
    (hle : buf.length ≤ max_records * record_size) :
    Backend.read_tail_bytes fs p record_size max_records = buf := by
  unfold Backend.read_tail_bytes
  rw [hfs]
  dsimp only
  rw [min_eq_left hle]
  by_cases h0 : buf.length ≤ 0
  · rw [if_pos h0]
    exact (List.eq_nil_of_length_eq_zero (by omega)).symm
  · rw [if_neg h0, Nat.sub_self, List.drop_zero]

theorem read_tail_bytes_tail {fs : FS} {p : String} {buf : Buffer}
    {record_size max_records : Nat} (hfs : fs p = some buf)
    (hgt : 0 < max_records * record_size)
    (hge : max_records * record_size ≤ buf.length) :
    Backend.read_tail_bytes fs p record_size max_records =
      buf.drop (buf.length - max_records * record_size) := by
  unfold Backend.read_tail_bytes
  rw [hfs]
  dsimp only
  rw [min_eq_right hge]
  rw [if_neg (by omega)]

theorem accelDecodeStage_encode (recs : List PF4) (hwf : ∀ r ∈ recs, Wf4 r) :
    Backend.accelDecodeStage (encodeAccelLog recs) = some (recs.map recBits4) := by
  unfold Backend.accelDecodeStage
  have hlen : (encodeAccelLog recs).length = 20 * recs.length :=
    encodeAccelLog_length recs
  have hdiv : (encodeAccelLog recs).length / Backend.ACCEL_SIZE *
      Backend.ACCEL_SIZE = (encodeAccelLog recs).length := by
    rw [hlen]
    show 20 * recs.length / 20 * 20 = 20 * recs.length
    rw [Nat.mul_div_cancel_left recs.length (by norm_num)]
    ring
  rw [hdiv, List.take_length]
  exact iterUnpack_dfff_encode recs hwf

theorem read_accel_points_encode
    (fs : FS) (recs : List PF4) (now_s : Int) (minutes : Nat) (channel : String)
    (max_records_to_scan limit : Nat)
    (hfile : fs Backend.ACCEL_BIN = some (encodeAccelLog recs))
    (hwf : ∀ r ∈ recs, Wf4 r)
    (hbound : recs.length ≤ max_records_to_scan) :
    Backend.read_accel_points fs now_s minutes channel max_records_to_scan limit
      = some (pySliceLast limit ((recs.filter (fun r =>
          !decide (f64scaled r.1.bits64 <
            now_s - (minutes * 60 : Nat) * secondScale))).map
          (accelProj channel))) := by
  have hle : (encodeAccelLog recs).length ≤
      max_records_to_scan * Backend.ACCEL_SIZE := by
    rw [encodeAccelLog_length]
    calc 20 * recs.length ≤ 20 * max_records_to_scan :=
          Nat.mul_le_mul_left 20 hbound
      _ = max_records_to_scan * Backend.ACCEL_SIZE := Nat.mul_comm _ _
  simp only [Backend.read_accel_points]
  rw [read_tail_bytes_full _ _ hfile hle]
  by_cases hnil : encodeAccelLog recs = []
  · rw [if_pos hnil]
    have hz : recs = [] := by
      have h := encodeAccelLog_length recs
      rw [hnil] at h
      simp only [List.length_nil] at h
      exact List.eq_nil_of_length_eq_zero (by omega)
    subst hz
    simp [pySliceLast]
  · rw [if_neg hnil, accelDecodeStage_encode recs hwf]
    dsimp only
    by_cases hch : channel = "all"
    · subst hch
      rw [if_pos rfl]
      rw [List.filter_map, List.map_map]
      rfl
    · rw [if_neg hch]
      rw [List.filter_map, List.map_map]
      apply congrArg
      apply congrArg
      apply List.map_congr_left
      intro r _
      simp only [Function.comp, accelProj, if_neg hch]
      rfl

theorem not_lt_decide_eq_le_decide (c x : Int) :
    (!decide (x < c)) = decide (c ≤ x) := by
  rw [← decide_not, decide_eq_decide]
  exact not_lt

theorem pySliceLast_eq_takeLast {α : Type} {limit : Nat} (h : limit ≠ 0)
    (l : List α) : pySliceLast limit l = takeLast limit l := by
  simp [pySliceLast, takeLast, h]

theorem tsBits_accelProj (channel : String) (r : PF4) :
    (accelProj channel r).tsBits = r.1.bits64 := by
  unfold accelProj
  split <;> rfl

/-- Claim C2: for a log file of whole records with strictly increasing
timestamps, all within the tail-scan bound, and any cutoff
`c = now - minutes * 60`, the query returns exactly the subsequence of
records with timestamp `>= c`, truncated to the last `limit` entries, in
ascending timestamp order.  (`limit >= 1`: Python `points[-limit:]` with
`limit = 0` returns the whole list, and the route always passes
`limit = 500`.) -/
theorem accel_query_time_window
    (fs : FS) (recs : List PF4) (now_s : Int) (minutes : Nat) (channel : String)
    (max_records_to_scan limit : Nat)
    (hfile : fs Backend.ACCEL_BIN = some (encodeAccelLog recs))
    (hwf : ∀ r ∈ recs, Wf4 r)
    (hsorted : recs.Pairwise
      (fun a b => f64scaled a.1.bits64 < f64scaled b.1.bits64))
    (hbound : recs.length ≤ max_records_to_scan)
    (hlimit : 1 ≤ limit) :
    Backend.read_accel_points fs now_s minutes channel max_records_to_scan limit
      = some (takeLast limit ((recs.filter (fun r =>
          decide (now_s - (minutes * 60 : Nat) * secondScale ≤
            f64scaled r.1.bits64))).map (accelProj channel)))
    ∧ (takeLast limit ((recs.filter (fun r =>
          decide (now_s - (minutes * 60 : Nat) * secondScale ≤
            f64scaled r.1.bits64))).map (accelProj channel))).Pairwise
        (fun p q => f64scaled p.tsBits < f64scaled q.tsBits) := by
  have hfeq : (fun r : PF4 => !decide (f64scaled r.1.bits64 <
      now_s - (minutes * 60 : Nat) * secondScale)) = (fun r : PF4 =>
      decide (now_s - (minutes * 60 : Nat) * secondScale ≤
        f64scaled r.1.bits64)) := by
    funext r
    exact not_lt_decide_eq_le_decide _ _
  constructor
  · rw [read_accel_points_encode fs recs now_s minutes channel
      max_records_to_scan limit hfile hwf hbound]
    rw [pySliceLast_eq_takeLast (by omega), hfeq]
  · have h1 : (recs.filter (fun r =>
        decide (now_s - (minutes * 60 : Nat) * secondScale ≤
          f64scaled r.1.bits64))).Pairwise
        (fun a b => f64scaled a.1.bits64 < f64scaled b.1.bits64) :=
      hsorted.sublist (List.filter_sublist recs)
    have h2 : ((recs.filter (fun r =>
        decide (now_s - (minutes * 60 : Nat) * secondScale ≤
          f64scaled r.1.bits64))).map (accelProj channel)).Pairwise
        (fun p q => f64scaled p.tsBits < f64scaled q.tsBits) := by
      refine List.Pairwise.map _ ?_ h1
      intro a b hab
      rw [tsBits_accelProj, tsBits_accelProj]
      exact hab
    exact h2.sublist (List.drop_sublist _ _)

/-- Witness for C2 at a concrete two-record log and cutoff. -/
theorem accel_query_time_window_witness :
    ((fun p => if p = Backend.ACCEL_BIN then
        some (encodeAccelLog [(⟨1, 0⟩, ⟨0, 11⟩, ⟨0, 12⟩, ⟨0, 13⟩),
          (⟨2, 0⟩, ⟨0, 21⟩, ⟨0, 22⟩, ⟨0, 23⟩)]) else none) :
        FS) Backend.ACCEL_BIN
      = some (encodeAccelLog [(⟨1, 0⟩, ⟨0, 11⟩, ⟨0, 12⟩, ⟨0, 13⟩),
          (⟨2, 0⟩, ⟨0, 21⟩, ⟨0, 22⟩, ⟨0, 23⟩)])
    ∧ Backend.read_accel_points
        (fun p => if p = Backend.ACCEL_BIN then
          some (encodeAccelLog [(⟨1, 0⟩, ⟨0, 11⟩, ⟨0, 12⟩, ⟨0, 13⟩),
            (⟨2, 0⟩, ⟨0, 21⟩, ⟨0, 22⟩, ⟨0, 23⟩)]) else none)
        (f64scaled 2) 0 "x" 50000 500
      = some (takeLast 500
          (([(⟨1, 0⟩, ⟨0, 11⟩, ⟨0, 12⟩, ⟨0, 13⟩),
            ((⟨2, 0⟩ : PyFloat), (⟨0, 21⟩ : PyFloat), (⟨0, 22⟩ : PyFloat),
              (⟨0, 23⟩ : PyFloat))].filter (fun r =>
            decide (f64scaled 2 - ((0 : Nat) * 60 : Nat) * secondScale ≤
              f64scaled r.1.bits64))).map (accelProj "x"))) :=
  ⟨by decide,
   (accel_query_time_window _ _ (f64scaled 2) 0 "x" 50000 500 (by decide)
     (by decide) (by decide) (by decide) (by decide)).1⟩

/-- Claim C3: on an existing file of `R` whole records with `max_records = K
< R`, `_read_tail_bytes` returns exactly the last `K` records' bytes --
byte-identical to the whole file with everything but the last
`K * record_size` bytes sliced off -- and returns an empty buffer for a
non-existent file. -/
theorem read_tail_last_records (fs : FS) (p : String) (buf : Buffer)
    (record_size R K : Nat) (hfs : fs p = some buf)
    (hlen : buf.length = R * record_size) (hK : K < R) :
    Backend.read_tail_bytes fs p record_size K
      = buf.drop (buf.length - K * record_size)
    ∧ ∀ (fs' : FS) (q : String), fs' q = none →
        Backend.read_tail_bytes fs' q record_size K = [] := by
  constructor
  · have hge : K * record_size ≤ buf.length := by
      rw [hlen]
      exact Nat.mul_le_mul_right record_size (by omega)
    by_cases h0 : 0 < K * record_size
    · exact read_tail_bytes_tail hfs h0 hge
    · have hz : K * record_size = 0 := by omega
      rw [hz, Nat.sub_zero, List.drop_length]
      unfold Backend.read_tail_bytes
      rw [hfs]
      dsimp only
      rw [hz]
      simp
  · intro fs' q hq
    exact read_tail_bytes_none hq record_size K

/-- Witness for C3: a two-record file read with `K = 1`, and a missing file. -/
theorem read_tail_last_records_witness :
    Backend.read_tail_bytes
      (fun p => if p = "f" then some [7, 8] else none) "f" 1 1 = [8]
    ∧ Backend.read_tail_bytes
      (fun p => if p = "f" then some [7, 8] else none) "g" 1 1 = [] :=
  ⟨((read_tail_last_records
      (fun p => if p = "f" then some [7, 8] else none) "f" [7, 8] 1 2 1
      (by decide) (by decide) (by decide)).1).trans (by decide),
   (read_tail_last_records
      (fun p => if p = "f" then some [7, 8] else none) "f" [7, 8] 1 2 1
      (by decide) (by decide) (by decide)).2 _ "g" (by decide)⟩

theorem inclin_path_ne_accel (d : String) :
    AllData.DATA_DIR ++ "/inclin_" ++ d ++ ".bin"
      ≠ AllData.DATA_DIR ++ "/accel_" ++ d ++ ".bin" := by
  intro h
  have h2 := congrArg String.data h
  simp only [String.data_append] at h2
  have h3 := congrArg List.length h2
  simp only [List.length_append, List.length_cons, List.length_nil] at h3
  omega

theorem inclin_path_ne_temp (d : String) :
    AllData.DATA_DIR ++ "/inclin_" ++ d ++ ".bin"
      ≠ AllData.DATA_DIR ++ "/temp_" ++ d ++ ".bin" := by
  intro h
  have h2 := congrArg String.data h
  simp only [String.data_append] at h2
  have h3 := congrArg List.length h2
  simp only [List.length_append, List.length_cons, List.length_nil] at h3
  omega

/-- Claim C4: a message carrying the acceleration triple and the temperature
field (and no inclinometer field) appends exactly one record to the
accelerometer file and one to the temperature file, and nothing to the
inclinometer file. -/
theorem routing_accel_temp_message (date_str : String) (ts a b c T : PyFloat)
    (iy iz : Option PyFloat) :
    AllData.on_message date_str
        ⟨some ts, some a, some b, some c, none, iy, iz, some T⟩
      = ([(AllData.DATA_DIR ++ "/accel_" ++ date_str ++ ".bin",
            pack_dfff ts a b c),
          (AllData.DATA_DIR ++ "/temp_" ++ date_str ++ ".bin",
            pack_df ts T)], none)
    ∧ ∀ rec : Buffer,
        (AllData.DATA_DIR ++ "/inclin_" ++ date_str ++ ".bin", rec) ∉
          (AllData.on_message date_str
            ⟨some ts, some a, some b, some c, none, iy, iz, some T⟩).1 := by
  refine ⟨rfl, ?_⟩
  intro rec hmem
  have hmem2 : (AllData.DATA_DIR ++ "/inclin_" ++ date_str ++ ".bin", rec) ∈
      [(AllData.DATA_DIR ++ "/accel_" ++ date_str ++ ".bin",
          pack_dfff ts a b c),
        (AllData.DATA_DIR ++ "/temp_" ++ date_str ++ ".bin",
          pack_df ts T)] := hmem
  simp only [List.mem_cons, List.not_mem_nil, or_false] at hmem2
  rcases hmem2 with h | h
  · exact inclin_path_ne_accel date_str (congrArg Prod.fst h)
  · exact inclin_path_ne_temp date_str (congrArg Prod.fst h)

theorem accelDecodeStage_total (data : Buffer) :
    ∃ recs, Backend.accelDecodeStage data = some recs ∧
      recs.length = data.length / Backend.ACCEL_SIZE := by
  unfold Backend.accelDecodeStage iterUnpack_dfff
  simp only [Backend.ACCEL_SIZE]
  have hu : data.length / 20 * 20 ≤ data.length := Nat.div_mul_le_self _ _
  have htl : (data.take (data.length / 20 * 20)).length =
      data.length / 20 * 20 := by
    rw [List.length_take]
    omega
  rw [htl]
  rw [if_pos (Nat.mul_mod_left _ _)]
  refine ⟨_, rfl, ?_⟩
  rw [List.length_map]
  exact chunks_length (by norm_num) (data.length / 20) _
    (by rw [htl]; exact Nat.mul_comm _ _)

theorem tempDecodeStage_total (data : Buffer) :
    ∃ recs, Backend.tempDecodeStage data = some recs ∧
      recs.length = data.length / Backend.TEMP_SIZE := by
  unfold Backend.tempDecodeStage iterUnpack_df
  simp only [Backend.TEMP_SIZE]
  have hu : data.length / 12 * 12 ≤ data.length := Nat.div_mul_le_self _ _
  have htl : (data.take (data.length / 12 * 12)).length =
      data.length / 12 * 12 := by
    rw [List.length_take]
    omega
  rw [htl]
  rw [if_pos (Nat.mul_mod_left _ _)]
  refine ⟨_, rfl, ?_⟩
  rw [List.length_map]
  exact chunks_length (by norm_num) (data.length / 12) _
    (by rw [htl]; exact Nat.mul_comm _ _)

/-- Claim C5: on a buffer whose length is not an exact multiple of the record
size, the decode stage truncates to the largest multiple of the record size
and decodes all remaining full records without error (`some`, never the
`struct.error` branch), for both the accelerometer and temperature paths. -/
theorem decode_discards_partial_tail (data : Buffer)
    (h20 : ¬ Backend.ACCEL_SIZE ∣ data.length)
    (h12 : ¬ Backend.TEMP_SIZE ∣ data.length) :
    (∃ recs, Backend.accelDecodeStage data = some recs ∧
      recs.length = data.length / Backend.ACCEL_SIZE)
    ∧ (∃ recs, Backend.tempDecodeStage data = some recs ∧
      recs.length = data.length / Backend.TEMP_SIZE) :=
  ⟨accelDecodeStage_total data, tempDecodeStage_total data⟩

/-- Witness for C5 on a 25-byte buffer (one 20-byte accel record plus a
5-byte partial tail; two 12-byte temperature records plus 1 byte). -/
theorem decode_discards_partial_tail_witness :
    (¬ Backend.ACCEL_SIZE ∣ (List.replicate 25 0 : Buffer).length)
    ∧ (¬ Backend.TEMP_SIZE ∣ (List.replicate 25 0 : Buffer).length)
    ∧ ((∃ recs, Backend.accelDecodeStage (List.replicate 25 0) = some recs ∧
        recs.length = (List.replicate 25 0 : Buffer).length /
          Backend.ACCEL_SIZE)
      ∧ (∃ recs, Backend.tempDecodeStage (List.replicate 25 0) = some recs ∧
        recs.length = (List.replicate 25 0 : Buffer).length /
          Backend.TEMP_SIZE)) :=
  ⟨by decide, by decide,
   decode_discards_partial_tail (List.replicate 25 0) (by decide) (by decide)⟩

/-- Claim C6 (code bug in the multi-node router): the temperature branch
packs `float(data["t"])` -- the timestamp -- as the 4-byte value instead of
`data["T"]`.  With t = 100.0 (bits 4636737291354636288 / 1120403456) and
T = 25.5 (bits 4627870829588250624 / 1103888384), the record written is
`pack_df t t`, which differs from the `pack_df t T` the claim specifies. -/
theorem temp_record_value_is_timestamp :
    MultiNode.on_message "20260101" "wind_turbine/node1"
        ⟨some ⟨4636737291354636288, 1120403456⟩, none, none,
          some ⟨4627870829588250624, 1103888384⟩⟩
      = ([("/home/pi/Data/temp_node1_20260101.bin",
            pack_df ⟨4636737291354636288, 1120403456⟩
              ⟨4636737291354636288, 1120403456⟩)], none)
    ∧ pack_df ⟨4636737291354636288, 1120403456⟩
          ⟨4636737291354636288, 1120403456⟩
        ≠ pack_df ⟨4636737291354636288, 1120403456⟩
          ⟨4627870829588250624, 1103888384⟩ :=
  ⟨by decide, by decide⟩

/-- Claim C7 (code bug): a message that nominally targets the accelerometer
(`"ax"` present) but is missing `"ay"`/`"az"`, while also carrying a valid
temperature field, makes the single-node router raise `KeyError: ay`;
nothing at all is appended -- the temperature contribution is lost and the
router crashes instead of dropping only the malformed kind. -/
theorem missing_field_crashes_router :
    AllData.on_message "20260101"
        ⟨some ⟨1, 1⟩, some ⟨0, 2⟩, none, none, none, none, none, some ⟨0, 9⟩⟩
      = ([], some "KeyError: ay") := by
  decide

/-- Claim C9 (code bug): a malformed topic (three segments instead of
`wind_turbine/<node>`) is dropped by a bare `return`: no write, no raised
error, no diagnostic -- exactly the same observable outcome as a benign
well-formed-topic message carrying no sensor payload, so the drop reason is
swallowed rather than preserved. -/
theorem malformed_topic_dropped_silently :
    MultiNode.on_message "20260101" "wind_turbine/node1/extra"
        ⟨some ⟨1, 1⟩, none, none, some ⟨0, 9⟩⟩ = ([], none)
    ∧ MultiNode.on_message "20260101" "wind_turbine/node1"
        ⟨some ⟨1, 1⟩, none, none, none⟩ = ([], none) :=
  ⟨by decide, by decide⟩

/-- Claim C1 (code bug): the ingestion writer's inclinometer format
`INCLIN_FORMAT = "<dfff"` produces 20-byte records `(ts, ix, iy, iz)` while
the query reader's `INCL_FORMAT = "<dff"` assumes 16-byte records, so the
claimed common 16-byte layout does not exist: a file of two writer records
decodes misaligned from the second record on (the second decoded timestamp
pattern mixes `iz` of record 1 with half of `ts` of record 2). -/
theorem inclin_writer_reader_format_mismatch :
    (pack_dfff ⟨10, 0⟩ ⟨0, 11⟩ ⟨0, 12⟩ ⟨0, 13⟩).length = 20
    ∧ Backend.INCL_SIZE = 16
    ∧ AllData.on_message "20260101"
        ⟨some ⟨10, 0⟩, none, none, none, some ⟨0, 11⟩, some ⟨0, 12⟩,
          some ⟨0, 13⟩, none⟩
      = ([("/home/pi/Data/inclin_20260101.bin",
            pack_dfff ⟨10, 0⟩ ⟨0, 11⟩ ⟨0, 12⟩ ⟨0, 13⟩)], none)
    ∧ Backend.inclDecodeStage
        (pack_dfff ⟨10, 0⟩ ⟨0, 11⟩ ⟨0, 12⟩ ⟨0, 13⟩ ++
          pack_dfff ⟨20, 0⟩ ⟨0, 21⟩ ⟨0, 22⟩ ⟨0, 23⟩)
      = some [(10, 11, 12), (85899345933, 0, 21)]
    ∧ some [(10, 11, 12), (85899345933, 0, 21)]
        ≠ some [((10 : Nat), (11 : Nat), (12 : Nat)), (20, 21, 22)] :=
  ⟨by decide, by decide, by decide, by decide, by decide⟩

set_option maxRecDepth 100000 in
/-- Counterexample to C8 as stated: channel `"bogus"` is not a recognized
accelerometer channel, yet the query returns the x-channel data of the
stored record -- not an empty result and not an error. -/
theorem unrecognized_channel_returns_x_data :
    Backend.read_accel_points
        (fun p => if p = Backend.ACCEL_BIN then
          some (pack_dfff ⟨1, 0⟩ ⟨0, 11⟩ ⟨0, 12⟩ ⟨0, 13⟩) else none)
        0 1 "bogus" 50000 500
      = some [Backend.AccelPoint.single 1 11]
    ∧ some [Backend.AccelPoint.single 1 11]
        ≠ some ([] : List Backend.AccelPoint) :=
  ⟨by decide, by decide⟩

/-- Claim C8 amended: an unrecognized channel name is treated as the default
channel (`x` for the accelerometer via `.get(channel, 1)`, `pitch` for the
inclinometer via `1 if channel != "roll" else 2`) and yields that default
channel's data, not an empty result and not an error. -/
theorem unrecognized_channel_defaults
    (fs : FS) (now_s : Int) (minutes max_records_to_scan limit : Nat)
    (channel : String) (h1 : channel ≠ "all") (h2 : channel ≠ "y")
    (h3 : channel ≠ "z") :
    Backend.read_accel_points fs now_s minutes channel max_records_to_scan
        limit
      = Backend.read_accel_points fs now_s minutes "x" max_records_to_scan
          limit
    ∧ ∀ ch : String, ch ≠ "roll" →
        Backend.read_inclinometer_points fs now_s minutes ch
            max_records_to_scan limit
          = Backend.read_inclinometer_points fs now_s minutes "pitch"
              max_records_to_scan limit := by
  constructor
  · have hidx : Backend.accelIdx channel = 1 := by
      unfold Backend.accelIdx
      by_cases hx : channel = "x"
      · rw [if_pos hx]
      · rw [if_neg hx, if_neg h2, if_neg h3]
    have hx1 : Backend.accelIdx "x" = 1 := by decide
    have hxall : ¬ ("x" : String) = "all" := by decide
    by_cases hd : Backend.read_tail_bytes fs Backend.ACCEL_BIN
        Backend.ACCEL_SIZE max_records_to_scan = []
    · simp [Backend.read_accel_points, hd]
    · cases hstage : Backend.accelDecodeStage (Backend.read_tail_bytes fs
          Backend.ACCEL_BIN Backend.ACCEL_SIZE max_records_to_scan) with
      | none => simp [Backend.read_accel_points, hd, hstage]
      | some recs =>
        simp [Backend.read_accel_points, hd, hstage, hidx, hx1, h1, hxall]
  · intro ch hch
    have hidx : Backend.inclIdx ch = 1 := by
      unfold Backend.inclIdx
      rw [if_pos hch]
    have hp1 : Backend.inclIdx "pitch" = 1 := by decide
    by_cases hd : Backend.read_tail_bytes fs Backend.INCL_BIN
        Backend.INCL_SIZE max_records_to_scan = []
    · simp [Backend.read_inclinometer_points, hd]
    · cases hstage : Backend.inclDecodeStage (Backend.read_tail_bytes fs
          Backend.INCL_BIN Backend.INCL_SIZE max_records_to_scan) with
      | none => simp [Backend.read_inclinometer_points, hd, hstage]
      | some recs =>
        simp [Backend.read_inclinometer_points, hd, hstage, hidx, hp1]

/-- Witness for the amended C8 on channel `"bogus"`. -/
theorem unrecognized_channel_defaults_witness :
    Backend.read_accel_points (fun _ => none) 0 1 "bogus" 50000 500
      = Backend.read_accel_points (fun _ => none) 0 1 "x" 50000 500
    ∧ Backend.read_inclinometer_points (fun _ => none) 0 1 "bogus" 50000 500
      = Backend.read_inclinometer_points (fun _ => none) 0 1 "pitch"
          50000 500 :=
  ⟨(unrecognized_channel_defaults (fun _ => none) 0 1 50000 500 "bogus"
      (by decide) (by decide) (by decide)).1,
   (unrecognized_channel_defaults (fun _ => none) 0 1 50000 500 "bogus"
      (by decide) (by decide) (by decide)).2 "bogus" (by decide)⟩

theorem string_mid_inj {pre suf d e : String}
    (h : pre ++ d ++ suf = pre ++ e ++ suf) : d = e := by
  have h2 := congrArg String.data h
  simp only [String.data_append] at h2
  rw [List.append_assoc, List.append_assoc] at h2
  have h3 := List.append_cancel_left h2
  have h4 := List.append_cancel_right h3
  have h5 : String.mk d.data = String.mk e.data := congrArg String.mk h4
  cases d
  cases e
  simpa using h5

/-- Counterexample to C10 as stated: on the one hard-coded date the writer's
day-partitioned path IS the path the query reads -- the reader constant
bakes in the date 2026-02-19. -/
theorem writer_day_path_hits_reader_constant :
    (SubBinary.get_daily_filename "20260219").2 = Backend.ACCEL_BIN := by
  decide

/-- Claim C10 amended: each query function reads a fixed constant path
(`accel_data_20260219.bin`, `incl_data.bin`, `temp_data.bin`), so its result
depends only on that one file and on no calendar day; and the accel writer's
day-partitioned path coincides with the reader's constant exactly when the
current date is 20260219 (and on no other day). -/
theorem query_paths_fixed
    (fs fs2 : FS) (now_s : Int) (minutes : Nat) (channel : String)
    (max_records_to_scan limit : Nat)
    (ha : fs Backend.ACCEL_BIN = fs2 Backend.ACCEL_BIN)
    (hi : fs Backend.INCL_BIN = fs2 Backend.INCL_BIN)
    (ht : fs Backend.TEMP_BIN = fs2 Backend.TEMP_BIN) :
    Backend.read_accel_points fs now_s minutes channel max_records_to_scan
        limit
      = Backend.read_accel_points fs2 now_s minutes channel
          max_records_to_scan limit
    ∧ Backend.read_inclinometer_points fs now_s minutes channel
          max_records_to_scan limit
      = Backend.read_inclinometer_points fs2 now_s minutes channel
          max_records_to_scan limit
    ∧ Backend.read_temperature_points fs now_s minutes max_records_to_scan
          limit
      = Backend.read_temperature_points fs2 now_s minutes
          max_records_to_scan limit
    ∧ ∀ d : String,
        (SubBinary.get_daily_filename d).2 = Backend.ACCEL_BIN
          ↔ d = "20260219" := by
  refine ⟨?_, ?_, ?_, ?_⟩
  · simp only [Backend.read_accel_points]
    rw [read_tail_bytes_congr ha]
  · simp only [Backend.read_inclinometer_points]
    rw [read_tail_bytes_congr hi]
  · simp only [Backend.read_temperature_points]
    rw [read_tail_bytes_congr ht]
  · intro d
    constructor
    · intro h
      have hbin : Backend.ACCEL_BIN
          = AllData.DATA_DIR ++ "/accel_data_" ++ "20260219" ++ ".bin" := by
        decide
      unfold SubBinary.get_daily_filename at h
      rw [hbin] at h
      exact string_mid_inj h
    · intro h
      subst h
      decide

/-- Witness for the amended C10: two filesystems agreeing on the three fixed
paths give identical query results, and a different date misses the reader
constant. -/
theorem query_paths_fixed_witness :
    Backend.read_accel_points (fun _ => some []) 0 1 "x" 1 1
      = Backend.read_accel_points
          (fun p => if p = "zzz" then none else some []) 0 1 "x" 1 1
    ∧ ((SubBinary.get_daily_filename "20270101").2 = Backend.ACCEL_BIN
        ↔ "20270101" = "20260219") :=
  ⟨(query_paths_fixed (fun _ => some [])
      (fun p => if p = "zzz" then none else some []) 0 1 "x" 1 1
      (by decide) (by decide) (by decide)).1,
   (query_paths_fixed (fun _ => some [])
      (fun p => if p = "zzz" then none else some []) 0 1 "x" 1 1
      (by decide) (by decide) (by decide)).2.2.2 "20270101"⟩

end SHM
